import Mathlib

/-!
Verification of the astrocats supernova-catalog import core.

This file gives a shallow embedding of the entity-resolution and
provenance-tracking engine of the repository (`scripts/import-external.py`
and `astrocats/catalog/catalog.py`) and proves properties about it.

Numeric conventions: the Python code works on decimal strings, converting
through `float`/`Decimal` for comparisons and through `'%g'` for
normalisation.  We embed a decimal string as an exact pair
(mantissa : Int, exponent : Int), i.e. the value mantissa * 10^exponent,
and model `float` comparisons over exact rationals.  The double-precision
intermediate of CPython coincides with the exact decimal semantics on all
the short decimal strings handled in this development (no value is within
double-rounding distance of a decision boundary), which is noted where it
matters.
-/

namespace Astrocats

/-! ## Python numeric-string primitives -/

/-- Python `s.strip()`: drop leading and trailing whitespace.  (Defined by
structural recursion on the character list; `String.trim` is extensionally
the same on the ASCII strings handled here but does not reduce in the
kernel.) -/
def pyStrip (s : String) : String :=
  String.mk (((s.data.dropWhile Char.isWhitespace).reverse.dropWhile Char.isWhitespace).reverse)

/-- Python `s.split(c)` for a one-character separator: the groups of
characters between occurrences of `c` (at least one group; empty groups
kept). -/
def splitChar (c : Char) : List Char → List (List Char)
  | [] => [[]]
  | x :: rest =>
    match splitChar c rest with
    | [] => [[]]
    | g :: gs => if x = c then [] :: g :: gs else (x :: g) :: gs

/-- Python `s.split(c)` on strings. -/
def pySplit (s : String) (c : Char) : List String := (splitChar c s.data).map String.mk

/-- ASCII lower-casing restricted to the letters that can occur in a valid
Python float literal (`inf`, `infinity`, `nan`, exponent `e`); every other
character is returned unchanged, which rejects exactly the same strings as
full lower-casing does. -/
def lowerAscii (c : Char) : Char :=
  if c = 'E' then 'e'
  else if c = 'I' then 'i'
  else if c = 'N' then 'n'
  else if c = 'F' then 'f'
  else if c = 'A' then 'a'
  else if c = 'T' then 't'
  else if c = 'Y' then 'y'
  else c

/-- Value of a Python `float(...)` conversion: an exact finite decimal
`m * 10^e`, an infinity, or a NaN. -/
inductive PFloat where
  | fin (m : Int) (e : Int)
  | pinf
  | ninf
  | nan
  deriving DecidableEq, Repr

/-- `10^n` over ℚ, for `n : Int`. -/
def pow10 (n : Int) : ℚ :=
  if 0 ≤ n then ((10 ^ n.toNat : Nat) : ℚ) else 1 / ((10 ^ (-n).toNat : Nat) : ℚ)

/-- Exact rational value of a finite decimal pair. -/
def finToRat (m e : Int) : ℚ := (m : ℚ) * pow10 e

/-- Digits of a character list, as a natural number (most significant first). -/
def digitsToNat (ds : List Char) : Nat :=
  ds.foldl (fun a c => 10 * a + (c.toNat - 48)) 0

/-- Split a character list into its leading run of decimal digits and the rest. -/
def takeDigits (cs : List Char) : List Char × List Char :=
  (cs.takeWhile Char.isDigit, cs.dropWhile Char.isDigit)

/-- Parse the optional exponent part `e<sign?><digits>` of a Python float
literal; returns the exponent and requires the remainder to be empty. -/
def parseExpPart (cs : List Char) : Option Int :=
  match cs with
  | [] => some 0
  | 'e' :: rest =>
    let (sgn, rest2) :=
      match rest with
      | '+' :: r => ((1 : Int), r)
      | '-' :: r => ((-1 : Int), r)
      | r => ((1 : Int), r)
    let (ds, rest3) := takeDigits rest2
    if ds = [] ∨ rest3 ≠ [] then none else some (sgn * (digitsToNat ds : Int))
  | _ => none

/-- Parse the unsigned finite part `digits[.digits][exp]` of a Python float
literal (already lower-cased), returning (mantissa, exponent). -/
def parseFinPart (cs : List Char) : Option (Int × Int) :=
  let (ip, r1) := takeDigits cs
  match r1 with
  | '.' :: r2 =>
    let (fp, r3) := takeDigits r2
    if ip = [] ∧ fp = [] then none
    else
      match parseExpPart r3 with
      | some ex => some ((digitsToNat (ip ++ fp) : Int), ex - (fp.length : Int))
      | none => none
  | _ =>
    if ip = [] then none
    else
      match parseExpPart r1 with
      | some ex => some ((digitsToNat ip : Int), ex)
      | none => none

/-- Model of CPython `float(s)` on a string: strips surrounding whitespace,
accepts an optional sign, `inf`/`infinity`/`nan` (case-insensitively), or a
decimal literal with optional fraction and exponent.  (`Decimal(s)` accepts
the same forms on the inputs arising here.) -/
def parsePFloat (s : String) : Option PFloat :=
  let cs := (pyStrip s).data.map lowerAscii
  let (neg, cs2) :=
    match cs with
    | '+' :: r => (false, r)
    | '-' :: r => (true, r)
    | r => (false, r)
  if cs2 = ['i', 'n', 'f'] ∨ cs2 = ['i', 'n', 'f', 'i', 'n', 'i', 't', 'y'] then
    some (if neg then PFloat.ninf else PFloat.pinf)
  else if cs2 = ['n', 'a', 'n'] then some PFloat.nan
  else
    match parseFinPart cs2 with
    | some (m, e) => some (PFloat.fin (if neg then -m else m) e)
    | none => none

/-- `is_number(s)`: whether Python `float(s)` succeeds
(`import-external.py`, `is_number`). -/
def is_number (s : String) : Bool := (parsePFloat s).isSome

/-- Exact `<` comparison of two Python float values (any comparison with
NaN is false). -/
def pfLt (a b : PFloat) : Bool :=
  match a, b with
  | PFloat.nan, _ => false
  | _, PFloat.nan => false
  | PFloat.ninf, PFloat.ninf => false
  | PFloat.ninf, _ => true
  | PFloat.fin _ _, PFloat.ninf => false
  | PFloat.fin m e, PFloat.fin m' e' => decide (finToRat m e < finToRat m' e')
  | PFloat.fin _ _, PFloat.pinf => true
  | PFloat.pinf, _ => false

/-- `float(s) < 0.` for a string that passed `is_number` (false when the
string does not parse, a case the call sites rule out). -/
def floatLtZero (s : String) : Bool :=
  match parsePFloat s with
  | some f => pfLt f (PFloat.fin 0 0)
  | none => false

/-- `float(s) < float(t)` on numeric strings (false on parse failure,
which the call sites rule out). -/
def floatLtFloat (s t : String) : Bool :=
  match parsePFloat s, parsePFloat t with
  | some f, some g => pfLt f g
  | _, _ => false

/-- Number of decimal digits of a natural number (1 for 0). -/
def decDigits (n : Nat) : Nat := (Nat.toDigits 10 n).length

/-- Strip factors of 10 from a mantissa, moving them into the exponent
(bounded by the digit count of the mantissa). -/
def stripZerosAux : Nat → Int → Int → Int × Int
  | 0, m, e => (m, e)
  | fuel + 1, m, e =>
    if m ≠ 0 ∧ m % 10 = 0 then stripZerosAux fuel (m / 10) (e + 1) else (m, e)

/-- Normalise a decimal pair so the mantissa is not divisible by 10. -/
def stripZeros (m e : Int) : Int × Int := stripZerosAux (decDigits m.natAbs) m e

/-- Python `round` to an integer: round half to even. -/
def halfEvenZ (q : ℚ) : Int :=
  let f := q.floor
  let r := q - (f : ℚ)
  if r < 1 / 2 then f
  else if 1 / 2 < r then f + 1
  else if f % 2 = 0 then f else f + 1

/-- Floor of log10 of a positive rational (junk on nonpositive input). -/
def floorLog10 (q : ℚ) : Int :=
  let c : Int := (decDigits q.num.natAbs : Int) - (decDigits q.den : Int)
  if pow10 c ≤ q then c else c - 1

/-- The digit characters of a natural number, most significant first. -/
def natDigitChars (n : Nat) : List Char := Nat.toDigits 10 n

/-- Replicate a character. -/
def rep (c : Char) (n : Nat) : List Char := List.replicate n c

/-- Fixed-point rendering used by `%g` once the decimal exponent `X` is in
range: digit list `d` (no trailing zeros), decimal exponent `e3`. -/
def gfmtFixed (d : List Char) (e3 : Int) : List Char :=
  if 0 ≤ e3 then d ++ rep '0' e3.toNat
  else
    let f := (-e3).toNat
    if f < d.length then (d.take (d.length - f)) ++ ['.'] ++ (d.drop (d.length - f))
    else ['0', '.'] ++ rep '0' (f - d.length) ++ d

/-- Exponential rendering used by `%g`: mantissa digits `d` (no trailing
zeros), decimal exponent `X`; exponents are written with a sign and at
least two digits. -/
def gfmtExp (d : List Char) (X : Int) : List Char :=
  let mant := match d with
    | [] => ['0']
    | [c] => [c]
    | c :: rest => c :: '.' :: rest
  let xa := X.natAbs
  let xd := natDigitChars xa
  let xd2 := if xa < 10 then '0' :: xd else xd
  mant ++ ['e', if X < 0 then '-' else '+'] ++ xd2

/-- Model of CPython `'%g' % v` for the exact decimal value `m * 10^e`:
round to 6 significant digits (half to even), then fixed-point notation
when the decimal exponent lies in [-4, 6), exponential notation otherwise,
stripping trailing zeros.  (The source formats a double; on every decimal
string this development evaluates, the double rounding agrees with the
exact decimal rounding.) -/
def gfmtCore (m e : Int) : String :=
  if m = 0 then "0"
  else
    let p := stripZeros m e
    let neg := p.1 < 0
    let n := p.1.natAbs
    let d := decDigits n
    let q :=
      if d ≤ 6 then (n, p.2)
      else
        let sh := d - 6
        ((halfEvenZ ((n : ℚ) / pow10 (sh : Int))).toNat, p.2 + (sh : Int))
    let p3 := stripZeros (q.1 : Int) q.2
    let n3 := p3.1.natAbs
    let d3 := decDigits n3
    let X : Int := (d3 : Int) - 1 + p3.2
    let ds := natDigitChars n3
    let body := if -4 ≤ X ∧ X < 6 then gfmtFixed ds p3.2 else gfmtExp ds X
    String.mk (if neg then '-' :: body else body)

/-- Model of `'%g' % Decimal(s)` on a numeric string `s`
(identity on strings that do not parse, a case ruled out at call sites). -/
def gfmt (s : String) : String :=
  match parsePFloat s with
  | some (PFloat.fin m e) => gfmtCore m e
  | some PFloat.pinf => "inf"
  | some PFloat.ninf => "-inf"
  | some PFloat.nan => "nan"
  | none => s

/-- `get_sig_digits(x)`: length of the string after removing every `'.'`
character and stripping `'0'` from both ends
(`import-external.py`, `get_sig_digits`). -/
def get_sig_digits (x : String) : Nat :=
  (((x.data.filter (fun c => c ≠ '.')).dropWhile (· = '0')).reverse.dropWhile (· = '0')).length

/-- `round_sig(x, sig)` as an exact decimal pair: the significant-digit
rounding `round(x, sig - floor(log10 |x|) - 1)` of `round_sig`
(`import-external.py`), represented as (mantissa, exponent). -/
def roundSigDec (x : ℚ) (sig : Nat) : Int × Int :=
  if x = 0 then (0, 0)
  else
    let n : Int := (sig : Int) - floorLog10 |x| - 1
    (halfEvenZ (x * pow10 n), -n)

/-- `pretty_num(x, sig)`: `'%g' % round_sig(x, sig)`
(`import-external.py`, `pretty_num`). -/
def pretty_num (x : ℚ) (sig : Nat) : String :=
  gfmtCore (roundSigDec x sig).1 (roundSigDec x sig).2

/-! ## Data model

`events` is an ordered dictionary from canonical name to the event record;
we embed it as an association list in insertion order.  An event record's
optional dictionary keys are embedded as `Option` fields (absent = `none`)
and its per-kind quantity lists as an association list in key insertion
order.  The `aliases` key is embedded as a plain list, `[]` standing for
an absent key (the two are indistinguishable to all code paths reached
from the operations embedded here). -/

/-- One source citation of an event (`get_source` record): `name`, optional
`url`/`bibcode`, 1-based string alias (field `aliasStr`; `alias` is a Lean keyword), `secondary` flag. -/
structure Source where
  name : String
  url : Option String := none
  bibcode : Option String := none
  aliasStr : String
  secondary : Bool := false
  deriving DecidableEq, Repr

/-- One quantity record (`add_quanta` entry): normalised `value`, optional
normalised `error`, optional comma-joined `source` alias string. -/
structure QRec where
  value : String
  error : Option String := none
  source : Option String := none
  deriving DecidableEq, Repr

/-- One photometry record (`add_photometry` entry); only the fields the
embedded operations read are listed. -/
structure Photo where
  timeunit : String := "MJD"
  time : String
  band : String := ""
  abmag : String
  aberr : Option String := none
  source : Option String := none
  upperlimit : Bool := false
  deriving DecidableEq, Repr

/-- One event record of the `events` dictionary. -/
structure Event where
  name : String
  aliases : List String := []
  sources : List Source := []
  quanta : List (String × List QRec) := []
  photometry : List Photo := []
  maxyear : Option String := none
  maxmonth : Option String := none
  maxday : Option String := none
  maxappmag : Option String := none
  discoveryear : Option String := none
  discovermonth : Option String := none
  discoverday : Option String := none
  deriving DecidableEq, Repr

/-- The `events` ordered dictionary: canonical name to event, in insertion
order. -/
abbrev Events := List (String × Event)

/-- Dictionary lookup `events[name]` (as an option). -/
def lookupEv (evs : Events) (n : String) : Option Event :=
  (evs.find? (fun p => p.1 == n)).map (·.2)

/-- Lookup of one quantity-kind key of an event (`quanta in events[name]`
and `events[name][quanta]`). -/
def getQ (ev : Event) (k : String) : Option (List QRec) :=
  (ev.quanta.find? (fun p => p.1 == k)).map (·.2)

/-- The quantity list of a key, `[]` when the key is absent. -/
def getQD (ev : Event) (k : String) : List QRec := (getQ ev k).getD []

/-- Dictionary assignment `events[name][k] = rs`: overwrite when the key
exists, append the key otherwise (Python dicts append new keys at the
end). -/
def setQ (ev : Event) (k : String) (rs : List QRec) : Event :=
  if (ev.quanta.find? (fun p => p.1 == k)).isSome then
    { ev with quanta := ev.quanta.map (fun p => if p.1 == k then (p.1, rs) else p) }
  else { ev with quanta := ev.quanta ++ [(k, rs)] }

/-- `events[name].setdefault(k, []).append(r)`. -/
def appendQ (ev : Event) (k : String) (r : QRec) : Event :=
  match getQ ev k with
  | some rs => setQ ev k (rs ++ [r])
  | none => setQ ev k [r]

/-! ## Entity directory: `add_event` and `add_alias` -/

/-- The alias-list update of `add_alias(name, alias)` on the alias list of
`events[name]` (`import-external.py`, `add_alias`): create the key with
`[alias]` when absent, append `alias` when not yet present. -/
def addAliasL (als : List String) (a : String) : List String :=
  if als = [] then [a] else if als.contains a then als else als ++ [a]

/-- `add_alias(name, alias)` (`import-external.py` lines 107-112).  The
Python call raises `KeyError` when `name` is not a key; the reachability
relations below only apply it to present keys. -/
def addAlias (evs : Events) (n a : String) : Events :=
  evs.map (fun p => if p.1 == n then (p.1, { p.2 with aliases := addAliasL p.2.aliases a }) else p)

/-- The fresh event made by `add_event` for an unknown name:
`events[name] = OrderedDict(); events[name]['name'] = name;
add_alias(name, name)`. -/
def newEvent (name : String) : Event := { name := name, aliases := [name] }

/-- `add_event(name)` (`import-external.py` lines 91-102): if `name` is a
key, return it; else return the first event having more than one alias
and `name` among its aliases; else create a fresh event keyed by `name`.
Returns the updated dictionary and the returned name. -/
def addEvent (evs : Events) (name : String) : Events × String :=
  if (lookupEv evs name).isSome then (evs, name)
  else
    match evs.find? (fun p => decide (1 < p.2.aliases.length) && p.2.aliases.contains name) with
    | some p => (evs, p.1)
    | none => (evs ++ [(name, newEvent name)], name)

/-- Modelled from the spec: `resolve_or_create(name)` as §4.1 words it —
if `name` is already a canonical key, return it; else if `name` matches an
alias of an existing entity, return that entity's canonical name; else
create a new entity with `canonical_name = alias = name` and return
`name`. -/
def resolveOrCreateSpec (evs : Events) (name : String) : Events × String :=
  if (lookupEv evs name).isSome then (evs, name)
  else
    match evs.find? (fun p => p.2.aliases.contains name) with
    | some p => (evs, p.1)
    | none => (evs ++ [(name, newEvent name)], name)

/-! ## Source registry: `get_source` -/

/-- The effective reference name of a `get_source` call: the bibcode when
no reference name was passed. -/
def srcRef (reference bibcode : String) : String :=
  if reference = "" then bibcode else reference

/-- The url recorded by `get_source`: the ADS link of the bibcode when no
reference name was passed, the given url otherwise. -/
def srcUrl (reference url bibcode : String) : String :=
  if reference = "" then "http://adsabs.harvard.edu/abs/" ++ bibcode else url

/-- The citation record appended by `get_source` on an identity miss. -/
def newSource (srcs : List Source) (reference url bibcode : String) (secondary : Bool) :
    Source :=
  { name := srcRef reference bibcode,
    url := if srcUrl reference url bibcode = "" then none else some (srcUrl reference url bibcode),
    bibcode := if bibcode = "" then none else some bibcode,
    aliasStr := toString (srcs.length + 1),
    secondary := secondary }

/-- `get_source(name, reference, url, bibcode, secondary)`
(`import-external.py` lines 136-162), acting on the source list of one
event.  With no reference and no bibcode it raises; with no reference it
falls back to the bibcode as reference name and the ADS url.  Identity is
checked against the `name` fields; a hit returns the first hit's alias,
a miss appends a citation whose alias is `str(len + 1)`.  (The source's
warning print when both bibcode and url are given has no state effect.) -/
def get_source (srcs : List Source) (reference url bibcode : String) (secondary : Bool) :
    Except String (List Source × String) :=
  if reference = "" ∧ bibcode = "" then .error "Bibcode must be specified if name is not."
  else
    match srcs.find? (fun s => s.name == srcRef reference bibcode) with
    | some s => .ok (srcs, s.aliasStr)
    | none =>
      .ok (srcs ++ [newSource srcs reference url bibcode secondary],
        toString (srcs.length + 1))

/-! ## Quantity store: `add_quanta` -/

/-- The "prefer-better" quantity kinds (`import-external.py`,
`repbetterquanta`). -/
def repbetterquanta : List String := ["redshift", "ebv", "hvel", "lumdist"]

/-- Claimed-type canonicalisation table (`import-external.py`, `typereps`).
The source holds it in an unordered Python dict; its alternative lists are
pairwise disjoint, so the scan order is immaterial and a fixed order is
used here. -/
def typereps : List (String × List String) :=
  [("I P", ["I pec", "I-pec", "I Pec", "I-Pec"]),
   ("Ia P", ["Ia pec", "Ia-pec", "Iapec"]),
   ("Ib P", ["Ib pec", "Ib-pec"]),
   ("Ic P", ["Ic pec", "Ic-pec"]),
   ("Ib/c", ["Ibc"]),
   ("Ib/c P", ["Ib/c-pec"]),
   ("II P", ["II pec", "IIpec", "II Pec", "IIPec", "IIP", "IIp", "II p", "II-pec", "II P pec", "II-P"]),
   ("II L", ["IIL"]),
   ("IIn P", ["IIn pec", "IIn-pec"]),
   ("IIb P", ["IIb-pec", "IIb: pec"])]

/-- Python `s.split()`: split on whitespace runs, dropping empty pieces. -/
def splitWs (s : String) : List String :=
  (s.split Char.isWhitespace).filter (fun t => t ≠ "")

/-- The quantity-kind-specific value munging of `add_quanta`: spacing fixes
for `host`, `typereps` canonicalisation for `claimedtype`, identity
otherwise. -/
def mungeValue (quanta svalue : String) : String :=
  if quanta = "host" then
    " ".intercalate (splitWs (((svalue.replace "NGC" "NGC ").replace "UGC" "UGC ").replace "IC" "IC "))
  else if quanta = "claimedtype" then
    match typereps.find? (fun p => p.2.contains svalue) with
    | some p => p.1
    | none => svalue
  else svalue

/-- The duplicate-value scan of `add_quanta` (`for i, ct in enumerate(...)`):
at the first record whose `value` equals `svalue`, union the new source
alias into its comma-joined source string (overwriting the record's error
with `serror` when the alias is new and `serror` is nonempty) and stop,
returning the updated list; `none` when no record matches.  Accessing the
`source` key of a matching record that has none raises `KeyError` in the
source (only when the new source alias is nonempty, by short-circuiting). -/
def dedupStep : List QRec → String → String → String → Except String (Option (List QRec))
  | [], _, _, _ => .ok none
  | ct :: rest, svalue, serror, source =>
    if ct.value == svalue then
      if source ≠ "" then
        match ct.source with
        | none => .error "KeyError: source"
        | some s =>
          if (pySplit s ',').contains source then .ok (some (ct :: rest))
          else
            .ok (some ({ ct with
                           source := some (s ++ "," ++ source),
                           error := if serror ≠ "" then some serror else ct.error } :: rest))
      else .ok (some (ct :: rest))
    else
      match dedupStep rest svalue serror source with
      | .error e => .error e
      | .ok none => .ok none
      | .ok (some rs2) => .ok (some (ct :: rs2))

/-- The "prefer-better" replacement loop of `add_quanta`
(`import-external.py` lines 292-314): walk the existing records building
`newquantas` and the `isworse` flag, then append the candidate entry iff
it is not worse.  A record with a stated error is dropped (and the
candidate marked not-worse) iff the candidate's error is stated and
strictly smaller; a record without one is dropped (and the candidate
marked not-worse) whenever the candidate has a stated error, and otherwise
competes on significant digits. -/
def rbStep (svalue serror : String) (acc : List QRec × Bool) (ct : QRec) :
    List QRec × Bool :=
  match ct.error with
  | some cterr =>
    if serror ≠ "" ∧ floatLtFloat serror cterr then (acc.1, false)
    else (acc.1 ++ [ct], acc.2)
  | none =>
    if serror ≠ "" then (acc.1, false)
    else
      let oldsig := get_sig_digits ct.value
      (if get_sig_digits svalue ≤ oldsig then acc.1 ++ [ct] else acc.1,
       if oldsig ≤ get_sig_digits svalue then false else acc.2)

/-- The prefer-better loop itself: `newquantas`/`isworse` accumulation over
the existing records, then the final conditional append of the candidate. -/
def replaceBetter (rs : List QRec) (entry : QRec) (svalue serror : String) : List QRec :=
  let acc := rs.foldl (rbStep svalue serror) ([], true)
  if acc.2 then acc.1 else acc.1 ++ [entry]

/-- The normalised value string `svalue` of `add_quanta`: the stripped
value, kind-munged, then `'%g' % Decimal(...)`-normalised when the
original value is numeric. -/
def normValue (quanta value : String) : String :=
  if is_number value then gfmt (mungeValue quanta (pyStrip value))
  else mungeValue quanta (pyStrip value)

/-- The normalised error string `serror` of `add_quanta`: the stripped
error, `'%g' % Decimal(...)`-normalised when nonempty. -/
def normError (error : String) : String :=
  if pyStrip error ≠ "" then gfmt (pyStrip error) else pyStrip error

/-- The candidate record `quantaentry` built by `add_quanta`. -/
def quantaEntry (quanta value source error : String) : QRec :=
  ⟨normValue quanta value,
   if normError error ≠ "" then some (normError error) else none,
   if source ≠ "" then some source else none⟩

/-- `add_quanta(name, quanta, value, source, forcereplacebetter, error)`
(`import-external.py` lines 247-316), acting on the event record
`events[name]` (the dictionary lookup itself is the caller's).  Raised
`ValueError`s are modelled as `.error`. -/
def addQuanta (ev : Event) (quanta value source : String)
    (forcereplacebetter : Bool) (error : String) : Except String Event :=
  if quanta = "" then .error "Quanta must be specified for add_quanta."
  else if pyStrip value = "" ∨ pyStrip value = "--" ∨ pyStrip value = "-" then .ok ev
  else if pyStrip error ≠ "" ∧ (¬ is_number (pyStrip error) ∨ floatLtZero (pyStrip error)) then
    .error "Quanta error value must be a number and positive."
  else if (quanta = "hvel" ∨ quanta = "redshift") ∧ ¬ is_number value then .ok ev
  else
    match dedupStep (getQD ev quanta) (normValue quanta value) (normError error) source with
    | .error e => .error e
    | .ok (some rs) => .ok (setQ ev quanta rs)
    | .ok none =>
      if (forcereplacebetter ∨ repbetterquanta.contains quanta) ∧ (getQ ev quanta).isSome then
        .ok (setQ ev quanta (replaceBetter (getQD ev quanta) (quantaEntry quanta value source error)
          (normValue quanta value) (normError error)))
      else .ok (appendQ ev quanta (quantaEntry quanta value source error))

/-! ## Derived quantities (`writeevents` finalisation block) -/

/-- Speed of light in cm/s (`import-external.py`, `clight`). -/
def clight : ℚ := 29979245800

/-- The relativistic Doppler velocity (km/s) derived from a redshift:
`clight/1.e5*((z + 1.)**2. - 1.)/((z + 1.)**2. + 1.)`. -/
def doppler (z : ℚ) : ℚ := clight / 100000 * ((z + 1) ^ 2 - 1) / ((z + 1) ^ 2 + 1)

/-- One step of the "best value" scan of the finalisation block: keep the
record's value when its significant-digit count strictly exceeds the best
so far. -/
def bestStep (b : String × Nat) (r : QRec) : String × Nat :=
  if b.2 < get_sig_digits r.value then (r.value, get_sig_digits r.value) else b

/-- The "best value" scan of the finalisation block: fold keeping the
first record whose significant-digit count strictly exceeds every earlier
one, starting from `bestsig = 0`. -/
def bestOf (rs : List QRec) : String × Nat := rs.foldl bestStep ("", 0)

/-- Rational square-root approximation standing in for the double-precision
`math.sqrt` of the source.  Only the guard structure of the derivation that
uses it is asserted below; no theorem depends on the value this returns. -/
def sqrtModel (q : ℚ) : ℚ := ((Nat.sqrt (q.num.toNat * q.den) : ℚ)) / (q.den : ℚ)

/-- The redshift/recession-velocity derivation of the `writeevents`
finalisation block (`import-external.py` lines 1478-1500), for one event:
derive `hvel` from the best stored redshift when `redshift` is a key and
`hvel` is not (and symmetrically).  A stored best value that `float`s to
an infinity or NaN makes `round_sig` raise in the source (`int(floor(
log10(...)))` of a non-finite), modelled as `.error`; so does `math.sqrt`
of a negative argument or the zero division at `voc = 1`.  `vocOf` is the
`voc = float(besthv)*1.e5/clight` velocity fraction of the hvel branch. -/
def vocOf (m e : Int) : ℚ := finToRat m e * 100000 / clight

/-- The branch structure of the derivation block itself. -/
def deriveVel (ev : Event) : Except String Event :=
  if (getQ ev "redshift").isSome ∧ ¬ (getQ ev "hvel").isSome then
    if 0 < (bestOf (getQD ev "redshift")).2 then
      match parsePFloat (bestOf (getQD ev "redshift")).1 with
      | some (PFloat.fin m e) =>
        addQuanta ev "hvel"
          (pretty_num (doppler (finToRat m e)) (bestOf (getQD ev "redshift")).2) "D" false ""
      | _ => .error "OverflowError: non-finite redshift"
    else .ok ev
  else if (getQ ev "hvel").isSome ∧ ¬ (getQ ev "redshift").isSome then
    if 0 < (bestOf (getQD ev "hvel")).2 ∧ is_number (bestOf (getQD ev "hvel")).1 then
      match parsePFloat (bestOf (getQD ev "hvel")).1 with
      | some (PFloat.fin m e) =>
        if -1 ≤ vocOf m e ∧ vocOf m e < 1 then
          addQuanta ev "redshift"
            (pretty_num (sqrtModel ((1 + vocOf m e) / (1 - vocOf m e)) - 1)
              (bestOf (getQD ev "hvel")).2) "D" false ""
        else .error "math domain error"
      | _ => .error "OverflowError: non-finite hvel"
    else .ok ev
  else .ok ev

/-! ## Photometry scans: first light and maximum light -/

/-- A calendar date. -/
structure Date where
  year : Int
  month : Nat
  day : Nat
  deriving DecidableEq, Repr

/-- Proleptic-Gregorian date of a day count relative to 1970-01-01
(standard civil-from-days algorithm; every division is by a positive
divisor on a nonnegative operand after the era shift, so the rounding
convention is immaterial). -/
def civilFromDays (z0 : Int) : Date :=
  let z := z0 + 719468
  let era := z / 146097
  let doe := z - era * 146097
  let yoe := (doe - doe / 1460 + doe / 36524 - doe / 146096) / 365
  let y := yoe + era * 400
  let doy := doe - (365 * yoe + yoe / 4 - yoe / 100)
  let mp := (5 * doy + 2) / 153
  let d := doy - (153 * mp + 2) / 5 + 1
  let m := if mp < 10 then mp + 3 else mp - 9
  ⟨if m ≤ 2 then y + 1 else y, m.toNat, d.toNat⟩

/-- Calendar date of the `astrotime(mjd, format='mjd').datetime` value of a
(possibly fractional) MJD: MJD 0 is 1858-11-17, i.e. day -40587 relative
to 1970-01-01. -/
def mjdToDate (mjd : ℚ) : Date := civilFromDays (mjd.floor - 40587)

/-- Rational value of a numeric string, for `Decimal(s)`/`float(s)`
conversions of stored values (`none` on non-finite or malformed input,
where the source raises or misbehaves; the theorems below stay in the
finite range). -/
def parseQ (s : String) : Option ℚ :=
  match parsePFloat s with
  | some (PFloat.fin m e) => some (finToRat m e)
  | _ => none

/-- `get_max_light(name)` (`import-external.py` lines 318-326): `(None,
None)` without photometry, else the calendar date of the time of the first
photometry record attaining the minimal `Decimal` magnitude, with that
magnitude. -/
def get_max_light (ev : Event) : Except String (Option (Date × ℚ)) :=
  match ev.photometry with
  | [] => .ok none
  | p :: ps =>
    match parseQ p.abmag, (p :: ps).mapM (fun r => parseQ r.abmag) with
    | some m0, some mags =>
      let mlmag := mags.foldl min m0
      match (p :: ps).find? (fun r => parseQ r.abmag == some mlmag) with
      | some rml =>
        match parseQ rml.time with
        | some t => .ok (some (mjdToDate t, mlmag))
        | none => .error "ValueError: malformed photometry time"
      | none => .error "unreachable: minimum not attained"
    | _, _ => .error "InvalidOperation: malformed magnitude"

/-- `get_first_light(name)` (`import-external.py` lines 328-335): `None`
without photometry, else the calendar date of the first photometry record
whose time string equals the minimum of the time STRINGS — `min` over
`str` compares lexicographically in Python, which is what the source
does. -/
def get_first_light (ev : Event) : Except String (Option Date) :=
  match ev.photometry with
  | [] => .ok none
  | p :: ps =>
    let mintime := ps.foldl (fun a r => if r.time < a then r.time else a) p.time
    match (p :: ps).find? (fun r => r.time == mintime) with
    | some rfl0 =>
      match parseQ rfl0.time with
      | some t => .ok (some (mjdToDate t))
      | none => .error "ValueError: malformed photometry time"
    | none => .error "unreachable: minimum not attained"

/-- `set_first_max_light(name)` (`import-external.py` lines 337-349). -/
def set_first_max_light (ev : Event) : Except String Event :=
  match get_max_light ev with
  | .error e => .error e
  | .ok ml =>
    let ev1 :=
      match ml with
      | some (d, mag) =>
        { ev with
            maxyear := some (pretty_num (d.year : ℚ) 4),
            maxmonth := some (pretty_num (d.month : ℚ) 4),
            maxday := some (pretty_num (d.day : ℚ) 4),
            maxappmag := some (pretty_num mag 4) }
      | none => ev
    match get_first_light ev1 with
    | .error e => .error e
    | .ok fl =>
      match fl with
      | some d =>
        .ok { ev1 with
                discoveryear := some (pretty_num (d.year : ℚ) 4),
                discovermonth := some (pretty_num (d.month : ℚ) 4),
                discoverday := some (pretty_num (d.day : ℚ) 4) }
      | none => .ok ev1

/-! ## Catalog merge copy: `Catalog.copy_entry_to_entry`

The `Entry` class (`astrocats/catalog/entry.py`) is not among the sources;
its pieces used by `copy_entry_to_entry` are modelled from the spec where
noted. -/

/-- One item of a sourced catalog-entry list: its optional comma-joined
`source` alias string and its remaining payload fields. -/
structure CItem where
  source : Option String := none
  payload : List (String × String) := []
  deriving DecidableEq, Repr

/-- A catalog entry as `copy_entry_to_entry` sees it: name, source
citations, error notes, and the remaining keyed item lists (quantities,
photometry, spectra) in key order. -/
structure CEntry where
  name : String
  sources : List Source := []
  errors : List CItem := []
  data : List (String × List CItem) := []
  deriving DecidableEq, Repr

/-- Modelled from the spec: the `no_source` key metadata of the missing
`Entry`/`Key` classes — the bookkeeping keys (name, schema, sources, error
notes) carry no per-item source and are skipped by the copy loop; every
quantity/measurement key is sourced. -/
def noSourceKey (k : String) : Bool :=
  k ∈ ["name", "schema", "sources", "errors"]

/-- Modelled from the spec: `Entry.add_source` of the missing `entry.py` —
dedupe against the destination registry by reference identity, appending
with a fresh 1-based alias on a miss and returning the citation's alias
(§ SourceRegistry; the same behaviour as `get_source`). -/
def addSourceModel (srcs : List Source) (s : Source) : List Source × String :=
  match srcs.find? (fun t => t.name == s.name) with
  | some t => (srcs, t.aliasStr)
  | none =>
    let a := toString (srcs.length + 1)
    (srcs ++ [{ s with aliasStr := a }], a)

/-- Modelled from the spec: `uniq_cdl` of the missing utils — join a list
of citation aliases into a comma-delimited string without duplicates. -/
def uniq_cdl (l : List String) : String := ",".intercalate l.dedup

/-- Modelled from the spec: the destination-side `add_photometry` /
`add_spectrum` / `add_error` / `add_quantity` calls of the copy loop — the
loser's items are appended to the winner's corresponding list (§4.1 merge:
"every quantity/measurement/error of the loser is copied to the winner");
their dedup-on-insert refinements are irrelevant to the properties proved
here. -/
def insertItem (dest : CEntry) (k : String) (it : CItem) : CEntry :=
  if k == "errors" then { dest with errors := dest.errors ++ [it] }
  else
    if (dest.data.find? (fun p => p.1 == k)).isSome then
      { dest with data := dest.data.map (fun p => if p.1 == k then (p.1, p.2 ++ [it]) else p) }
    else { dest with data := dest.data ++ [(k, [it])] }

/-- Remap one item's source aliases through the loser's registry into the
destination (`for sid in item['source'].split(',')` of
`copy_entry_to_entry`): every alias must be a key of `newsourcealiases`,
else `ValueError("Couldn't find source alias!")`. -/
def resolveSids (aliasMap : List (String × Source)) (dsrcs : List Source) :
    List String → Except String (List Source × List String)
  | [] => .ok (dsrcs, [])
  | sid :: rest =>
    match aliasMap.find? (fun p => p.1 == sid) with
    | none => .error "Couldn't find source alias!"
    | some p =>
      match resolveSids aliasMap (addSourceModel dsrcs p.2).1 rest with
      | .error e => .error e
      | .ok (d3, ns) => .ok (d3, (addSourceModel dsrcs p.2).2 :: ns)

/-- The inner item loop of `copy_entry_to_entry` for one key: an item
without a `source` key is `ValueError("Item has no source!")`; otherwise
its aliases are remapped and the item inserted into the destination. -/
def copyItems (aliasMap : List (String × Source)) (dest : CEntry) (k : String) :
    List CItem → Except String CEntry
  | [] => .ok dest
  | it :: rest =>
    match it.source with
    | none => .error "Item has no source!"
    | some s =>
      match resolveSids aliasMap dest.sources (pySplit s ',') with
      | .error e => .error e
      | .ok (srcs2, nsid) =>
        copyItems aliasMap
          (insertItem { dest with sources := srcs2 } k { it with source := some (uniq_cdl nsid) })
          k rest

/-- The outer key loop of `copy_entry_to_entry`: `no_source` keys are
skipped, the rest have their items copied in order. -/
def copyAll (aliasMap : List (String × Source)) (dest : CEntry) :
    List (String × List CItem) → Except String CEntry
  | [] => .ok dest
  | (k, items) :: rest =>
    if noSourceKey k then copyAll aliasMap dest rest
    else
      match copyItems aliasMap dest k items with
      | .error e => .error e
      | .ok d2 => copyAll aliasMap d2 rest

/-- `Catalog.copy_entry_to_entry(fromentry, destentry)`
(`astrocats/catalog/catalog.py` lines 598-647): build the alias-to-source
map of the loser, append the loser's error notes, then copy every sourced
item, remapping its citations (the map building pops the alias field off
the loser's source records in place; the popped records are only read
through the map afterwards, so the mutation is not modelled). -/
def copyEntry (fromE destE : CEntry) : Except String CEntry :=
  copyAll (fromE.sources.map (fun s => (s.aliasStr, s)))
    { destE with errors := destE.errors ++ fromE.errors } fromE.data

/-- Whether an `Except` computation raised. -/
def exceptRaised {ε α : Type} (x : Except ε α) : Bool :=
  match x with
  | .error _ => true
  | .ok _ => false

/-! ## Catalog name resolution: `Catalog.add_entry`

`Catalog.add_entry` (catalog.py lines 493-544) is the `Entry`-class
counterpart of `add_event`.  It operates on the `entries` ordered dict,
the `aliases` reverse index (alias to canonical name; created empty at
catalog.py line 180 and read only by `find_entry_name_of_alias` within the
sources), and the on-disk entry files consulted through
`load_entry_from_name`. -/

/-- One catalog entry as `Catalog.add_entry` sees it: name, `_stub` flag,
the alias list returned by `get_aliases(includename=False)` (the method
itself lives in the missing entry.py; its result is embedded as a stored
list), and the optional `distinct_from` list, `none` standing for an
absent key. -/
structure CatEntry where
  name : String
  stub : Bool := false
  aliases : List String := []
  distinctFrom : Option (List String) := none
  deriving DecidableEq, Repr

/-- The catalog state `add_entry` operates on: `entries`, the `aliases`
reverse index, and the storage behind `init_from_file`. -/
structure Cat where
  entries : List (String × CatEntry) := []
  aliasIndex : List (String × String) := []
  storage : List (String × CatEntry) := []
  deriving DecidableEq, Repr

/-- Dictionary lookup on a string-keyed association list. -/
def lookupA {α : Type} (l : List (String × α)) (k : String) : Option α :=
  (l.find? (fun p => p.1 == k)).map (fun p => p.2)

/-- Dictionary assignment `d[k] = v`: overwrite when the key exists,
append it otherwise. -/
def setA {α : Type} (l : List (String × α)) (k : String) (v : α) :
    List (String × α) :=
  if (l.find? (fun p => p.1 == k)).isSome then
    l.map (fun p => if p.1 == k then (p.1, v) else p)
  else l ++ [(k, v)]

/-- `Catalog.clean_entry_name` (catalog.py lines 649-654): the base-class
template returns the name unchanged. -/
def clean_entry_name (name : String) : String := name

/-- Modelled from the spec: `Entry.init_from_file` of the missing
entry.py — an entity is "fully reloaded from storage on demand"
(§3 Lifecycle); embedded as a lookup of the materialised entry in the
storage map. -/
def initFromFile (c : Cat) (name : String) : Option CatEntry :=
  lookupA c.storage name

/-- `Catalog.load_entry_from_name(name, delete)` (catalog.py lines
480-491): on a storage hit the loaded entry is written into `entries`
(overwriting a stub) and the source file deleted when requested, and the
name is returned; `None` on a miss.  (The returned name is tested for
truthiness by the caller; empty-string entry names do not arise.) -/
def load_entry_from_name (c : Cat) (name : String) (delete : Bool) :
    Cat × Option String :=
  match initFromFile c name with
  | some ent =>
    ({ c with
         entries := setA c.entries name ent,
         storage := if delete then c.storage.filter (fun p => p.1 != name)
                    else c.storage },
     some name)
  | none => (c, none)

/-- `Catalog.find_entry_name_of_alias(alias)` (catalog.py lines 569-592):
resolve through the reverse alias index; when the indexed name is gone
("possibly merged or deleted") scan all entries for the first one listing
the alias, skipping an entry whose `distinct_from` contains it; `None`
when the alias is not in the index at all, or no scan hit remains. -/
def find_entry_name_of_alias (c : Cat) (alias0 : String) : Option String :=
  match lookupA c.aliasIndex alias0 with
  | none => none
  | some name =>
    if (lookupA c.entries name).isSome then some name
    else
      match c.entries.find? (fun q => q.2.aliases.contains alias0 &&
          (match q.2.distinctFrom with
           | none => true
           | some l => ! l.contains alias0)) with
      | some q => some q.1
      | none => none

/-- Modelled from the spec: the fresh entry `self.proto(self, newname)`
built by `add_entry`'s creation path (the `Entry` constructor of the
missing entry.py).  The spec's data model says an entity's alias set
"includes canonical name", but the sourced code shows that is the
caller's separate step: `Catalog.new_entry` (catalog.py lines 656-664)
registers the name as an alias via `add_quantity` with a source only
*after* `add_entry` returns, and every alias quantity must cite a source
(`copy_entry_to_entry` raises on sourceless items), which the constructor
lacks — so the freshly created entry carries no aliases.  The `SCHEMA`
url assignment touches no property stated here and is omitted. -/
def protoEntry (name : String) : CatEntry :=
  { name := name, stub := false, aliases := [], distinctFrom := none }

/-- The opening test of `add_entry`: the cleaned name is a key of
`entries` holding a non-stub entry (`if newname in self.entries: ... else
return newname`). -/
def knownMaterial (c : Cat) (newname : String) : Bool :=
  match lookupA c.entries newname with
  | some ent => ! ent.stub
  | none => false

/-- `Catalog.add_entry(name, load, delete)` (catalog.py lines 493-544):
return a known non-stub key unchanged; else resolve the name through
`find_entry_name_of_alias`; when `load` is set, try to load the resolved
name from storage and return it on success; return the alias match if
any; otherwise create a fresh entry under the cleaned name and return
it. -/
def add_entry (c : Cat) (name : String) (load delete : Bool) : Cat × String :=
  if knownMaterial c (clean_entry_name name) then (c, clean_entry_name name)
  else
    match find_entry_name_of_alias c (clean_entry_name name) with
    | some m =>
      if load then
        match load_entry_from_name c m delete with
        | (c2, some ln) => (c2, ln)
        | (c2, none) => (c2, m)
      else (c, m)
    | none =>
      if load then
        match load_entry_from_name c (clean_entry_name name) delete with
        | (c2, some ln) => (c2, ln)
        | (c2, none) =>
          ({ c2 with
               entries := setA c2.entries (clean_entry_name name)
                 (protoEntry (clean_entry_name name)) },
           clean_entry_name name)
      else
        ({ c with
             entries := setA c.entries (clean_entry_name name)
               (protoEntry (clean_entry_name name)) },
         clean_entry_name name)

/-! ## Reachable states -/

/-- Directory states reachable from the empty `events` dictionary by the
ingestion operations the importer exposes for names and aliases:
`add_event(name)` and `add_alias(name, alias)` on a present key (an absent
key would raise `KeyError` before reaching any state change). -/
inductive EvReach : Events → Prop where
  | nil : EvReach []
  | ev (s : Events) (n : String) : EvReach s → EvReach (addEvent s n).1
  | al (s : Events) (n a : String) : EvReach s → (lookupEv s n).isSome = true →
      EvReach (addAlias s n a)

/-- Directory states reachable when, additionally, `add_alias(name, alias)`
is only invoked with an alias not already carried by a *different* entity
(the guarded discipline under which alias disjointness is an invariant). -/
inductive EvReachG : Events → Prop where
  | nil : EvReachG []
  | ev (s : Events) (n : String) : EvReachG s → EvReachG (addEvent s n).1
  | al (s : Events) (n a : String) : EvReachG s → (lookupEv s n).isSome = true →
      (∀ p ∈ s, p.1 ≠ n → a ∉ p.2.aliases) → EvReachG (addAlias s n a)

/-- Source registries reachable from an event with no `sources` key by any
sequence of successful `get_source` calls. -/
inductive GSReach : List Source → Prop where
  | nil : GSReach []
  | step (srcs : List Source) (r u b : String) (sec : Bool) (srcs' : List Source)
      (a : String) : GSReach srcs → get_source srcs r u b sec = .ok (srcs', a) →
      GSReach srcs'

/-- Every key of the directory appears in its own alias list (established
by `add_event` at creation and preserved by every operation). -/
def KeysInAliases (s : Events) : Prop := ∀ p ∈ s, p.1 ∈ p.2.aliases

/-- Pairwise alias disjointness: no name is an alias of two entities with
distinct canonical names. -/
def DisjAliases (s : Events) : Prop :=
  ∀ p ∈ s, ∀ q ∈ s, p.1 ≠ q.1 → ∀ a ∈ p.2.aliases, a ∉ q.2.aliases

/-- The directory invariant maintained by guarded ingestion: distinct
keys, each key among its own aliases, and pairwise-disjoint alias
lists. -/
def EvInv (s : Events) : Prop :=
  (s.map (fun p => p.1)).Nodup ∧ KeysInAliases s ∧ DisjAliases s

/-! ## Concrete instances used in the theorems below -/

/-- A fresh event with no quantities. -/
def evFresh : Event := newEvent "SN2006x"

/-- `evFresh` after ingesting redshift `0.045` with error `0.001` from
source `S1`. -/
def evC3 : Event :=
  { evFresh with quanta := [("redshift", [⟨"0.045", some "0.001", some "S1"⟩])] }

/-- Directory holding `SN1987A` with registered alias `1987A`, built by
the importer's own operations. -/
def ex1987 : Events := addAlias (addEvent [] "SN1987A").1 "SN1987A" "1987A"

/-- A catalog entry `SN1987A` that lists `1987A` as an alias but also
disclaims it in `distinct_from`. -/
def snDisclaim : CatEntry := ⟨"SN1987A", false, ["1987A"], some ["1987A"]⟩

/-- A catalog whose alias index maps `1987A` to the deleted name `GONE`
("possibly merged or deleted") while the one live entity, `SN1987A`,
lists — and disclaims — that alias. -/
def catDist : Cat := ⟨[("SN1987A", snDisclaim)], [("1987A", "GONE")], []⟩

/-- A healthy catalog: `SN1987A` materialised, `1987A` registered in its
alias list and in the live reverse index. -/
def cat87 : Cat :=
  ⟨[("SN1987A", ⟨"SN1987A", false, ["1987A"], none⟩)],
   [("SN1987A", "SN1987A"), ("1987A", "SN1987A")], []⟩

/-- An event with one errorless `discoverer` record cited by `S1`. -/
def evC5 : Event :=
  { name := "SN5", quanta := [("discoverer", [⟨"Smith", none, some "S1"⟩])] }

/-- An event with one redshift `0.00099` (two significant digits) and no
recession velocity. -/
def evC8 : Event :=
  { name := "SN8", quanta := [("redshift", [⟨"0.00099", none, some "1"⟩])] }

/-- An event whose only redshift is `0` (zero significant digits) and with
no recession velocity. -/
def evC8z : Event :=
  { name := "SN8z", quanta := [("redshift", [⟨"0", none, some "1"⟩])] }

/-- An event with photometry at times `9` (magnitude 2) and `10`
(magnitude 1). -/
def evC9 : Event :=
  { name := "SN9",
    photometry := [⟨"MJD", "9", "B", "2", none, some "1", false⟩,
                   ⟨"MJD", "10", "B", "1", none, some "1", false⟩] }

/-- A directory where `add_alias` has attached the alias `X` to both of
the distinct entities `A` and `B`. -/
def evBad : Events :=
  addAlias (addAlias (addEvent (addEvent [] "A").1 "B").1 "A" "X") "B" "X"

/-- A directory built by guarded ingestion: entities `A` and `B`, with the
fresh alias `Y` registered on `A`. -/
def evGood : Events := addAlias (addEvent (addEvent [] "A").1 "B").1 "A" "Y"

/-- A catalog entry with one citation and one sourced redshift item. -/
def ceFrom : CEntry :=
  { name := "L", sources := [{ name := "RefA", aliasStr := "1" }],
    data := [("redshift", [⟨some "1", [("value", "0.1")]⟩])] }

/-- A catalog entry like `ceFrom` whose quantity item has no source. -/
def ceFromNoSrc : CEntry :=
  { name := "L", sources := [{ name := "RefA", aliasStr := "1" }],
    data := [("redshift", [⟨none, [("value", "0.1")]⟩])] }

/-- A destination catalog entry with one citation. -/
def ceDest : CEntry := { name := "W", sources := [{ name := "RefB", aliasStr := "1" }] }

/-! ## C10: blank-value guard of `add_quanta` -/

/-- C10, counterexample to the claim as stated: a call whose `value` is
empty (hence satisfies the claim's trigger) but whose `quanta` kind is
empty raises `ValueError` instead of returning silently. -/
theorem C10_counterexample :
    addQuanta evFresh "" "" "S1" false "" =
      .error "Quanta must be specified for add_quanta." := by
  rfl

/-- C10 (amended: for a nonempty quantity kind): a call whose stripped
value is empty, `--` or `-` returns the event unchanged and raises
nothing, whatever the other arguments are. -/
theorem C10_blank_value (ev : Event) (quanta value source error : String)
    (hq : quanta ≠ "")
    (hv : pyStrip value = "" ∨ pyStrip value = "--" ∨ pyStrip value = "-") :
    addQuanta ev quanta value source false error = .ok ev := by
  unfold addQuanta
  rw [if_neg hq, if_pos hv]

/-- C10 witness: a blank value returns unchanged even alongside a
malformed error string. -/
theorem C10_blank_value_witness :
    addQuanta evFresh "redshift" " -- " "S1" false "bogus" = .ok evFresh :=
  C10_blank_value evFresh "redshift" " -- " "S1" "bogus" (by decide)
    (Or.inr (Or.inl (by decide)))

/-! ## C4: malformed error strings in `add_quanta` -/

/-- C4, counterexample to the claim as stated: an unparsable error string
makes `add_quanta` raise `ValueError` — the candidate is not silently
dropped. -/
theorem C4_counterexample :
    addQuanta evFresh "redshift" "1" "S1" false "bogus" =
      .error "Quanta error value must be a number and positive." := by
  with_unfolding_all rfl

/-- C4 (amended): whenever the stripped error string is nonempty and does
not parse as a nonnegative number, `add_quanta` raises `ValueError`
(leaving the event unmodified, as the raise precedes every mutation); it
does not drop the candidate silently. -/
theorem C4_bad_error_raises (ev : Event) (quanta value source error : String)
    (hq : quanta ≠ "")
    (hv : ¬(pyStrip value = "" ∨ pyStrip value = "--" ∨ pyStrip value = "-"))
    (he : pyStrip error ≠ "")
    (hbad : is_number (pyStrip error) = false ∨ floatLtZero (pyStrip error) = true) :
    addQuanta ev quanta value source false error =
      .error "Quanta error value must be a number and positive." := by
  unfold addQuanta
  rw [if_neg hq, if_neg hv, if_pos]
  refine ⟨he, ?_⟩
  rcases hbad with h | h
  · exact Or.inl (by simp [h])
  · exact Or.inr (by simp [h])

/-- C4 witness: a negative error raises. -/
theorem C4_bad_error_raises_witness :
    addQuanta evFresh "redshift" "0.5" "S1" false "-0.001" =
      .error "Quanta error value must be a number and positive." :=
  C4_bad_error_raises evFresh "redshift" "0.5" "S1" "-0.001" (by decide) (by decide)
    (by decide) (Or.inr (by with_unfolding_all decide))

/-! ## C9: first-light selection scans time strings lexicographically -/

/-- C9: on photometry with times `9` and `10`, `get_first_light` picks the
record whose time string is the *lexicographic* minimum `"10"` and returns
1858-11-27, although the numerically minimal stored time is `9` (whose
calendar date is 1858-11-26) — the code compares the stored time strings
with Python string `min`, not numerically. -/
theorem C9_first_light_lexicographic :
    get_first_light evC9 = .ok (some ⟨1858, 11, 27⟩) ∧
    mjdToDate 9 = ⟨1858, 11, 26⟩ ∧
    (∃ p ∈ evC9.photometry, parseQ p.time = some 9) ∧
    (∀ p ∈ evC9.photometry, parseQ p.time = some 9 ∨ parseQ p.time = some 10) := by
  refine ⟨by with_unfolding_all rfl, by with_unfolding_all rfl, ?_, ?_⟩
  · exact ⟨⟨"MJD", "9", "B", "2", none, some "1", false⟩, by decide,
      by with_unfolding_all rfl⟩
  · with_unfolding_all decide

/-! ## C5: the duplicate-value branch of `add_quanta` -/

/-- The duplicate scan finds nothing when no record carries the value. -/
theorem dedupStep_of_not_mem (sv se so : String) (rs : List QRec)
    (h : ∀ r ∈ rs, r.value ≠ sv) : dedupStep rs sv se so = .ok none := by
  induction rs with
  | nil => rfl
  | cons ct rest ih =>
    have hct : (ct.value == sv) = false :=
      beq_eq_false_iff_ne.mpr (h ct (List.mem_cons_self ct rest))
    simp only [dedupStep, hct, Bool.false_eq_true, if_false,
      ih (fun r hr => h r (List.mem_cons_of_mem ct hr))]

/-- The record reached by the duplicate scan at the first value match, when
it carries a source string: the new source alias is unioned in when absent
(and the error overwritten when the candidate has one); the rest of the
list, and the record's value, are untouched. -/
theorem dedupStep_found (sv se so : String) (rs₁ : List QRec) (ct : QRec)
    (rs₂ : List QRec) (str : String)
    (h₁ : ∀ r ∈ rs₁, r.value ≠ sv) (hct : ct.value = sv)
    (hsrc : ct.source = some str) :
    dedupStep (rs₁ ++ ct :: rs₂) sv se so =
      .ok (some (rs₁ ++
        (if so ≠ "" ∧ ¬ (pySplit str ',').contains so then
          { ct with
              source := some (str ++ "," ++ so),
              error := if se ≠ "" then some se else ct.error }
         else ct) :: rs₂)) := by
  induction rs₁ with
  | nil =>
    simp only [List.nil_append]
    have hbeq : (ct.value == sv) = true := beq_iff_eq.mpr hct
    by_cases hso : so = ""
    · simp [dedupStep, hbeq, hso]
    · by_cases hin : so ∈ pySplit str ','
      · simp [dedupStep, hbeq, hso, hsrc, hin]
      · simp [dedupStep, hbeq, hso, hsrc, hin]
  | cons r rest ih =>
    have hr : (r.value == sv) = false :=
      beq_eq_false_iff_ne.mpr (h₁ r (List.mem_cons_self r rest))
    simp only [List.cons_append, dedupStep, hr, Bool.false_eq_true, if_false,
      List.append_eq, ih (fun x hx => h₁ x (List.mem_cons_of_mem r hx))]

/-- C5, counterexample to the claim as stated: re-ingesting the value
`Smith` of the (non-prefer-better) kind `discoverer` with a *new* source
`S2` and an error `0.5` does union the source in — but it also overwrites
the record's error field (previously absent) with `0.5`, so the source
union is not the only change. -/
theorem C5_counterexample :
    addQuanta evC5 "discoverer" "Smith" "S2" false "0.5" =
      .ok { evC5 with
              quanta := [("discoverer", [⟨"Smith", some "0.5", some "S1,S2"⟩])] } := by
  with_unfolding_all rfl

/-- C5 (amended): for a non-prefer-better kind (and a well-formed call),
when the normalised value matches an existing record, the matched record's
source set is extended by the new alias when absent — and, when the
candidate carries a normalised error and the alias is new, the record's
error is overwritten with it; the record's value, the other records, and
the rest of the event are untouched, and no record is appended.  When no
record matches, the candidate record is appended. -/
theorem C5_nonpreferred_dedup (ev : Event) (k value source error : String)
    (hk : ¬ k = "") (hnp : repbetterquanta.contains k = false)
    (hv : ¬(pyStrip value = "" ∨ pyStrip value = "--" ∨ pyStrip value = "-"))
    (hok : ¬(pyStrip error ≠ "" ∧ (¬ is_number (pyStrip error) ∨ floatLtZero (pyStrip error)))) :
    ((∀ r ∈ getQD ev k, r.value ≠ normValue k value) →
       addQuanta ev k value source false error =
         .ok (appendQ ev k (quantaEntry k value source error))) ∧
    (∀ rs₁ ct rs₂ str, getQD ev k = rs₁ ++ ct :: rs₂ →
       (∀ r ∈ rs₁, r.value ≠ normValue k value) →
       ct.value = normValue k value → ct.source = some str →
       addQuanta ev k value source false error =
         .ok (setQ ev k (rs₁ ++
           (if source ≠ "" ∧ ¬ (pySplit str ',').contains source then
             { ct with
                 source := some (str ++ "," ++ source),
                 error := if normError error ≠ "" then some (normError error) else ct.error }
            else ct) :: rs₂))) := by
  have hk2 : ¬ ((k = "hvel" ∨ k = "redshift") ∧ ¬ is_number value) := by
    rintro ⟨h | h, -⟩ <;> subst h <;> exact absurd hnp (by decide)
  constructor
  · intro hnone
    unfold addQuanta
    rw [if_neg hk, if_neg hv, if_neg hok, if_neg hk2,
      dedupStep_of_not_mem (normValue k value) (normError error) source (getQD ev k) hnone]
    have hbr : ¬ (((false : Bool) ∨ repbetterquanta.contains k) ∧ (getQ ev k).isSome) := by
      rintro ⟨h, -⟩
      rcases h with h | h
      · exact absurd h (by decide)
      · rw [hnp] at h; exact absurd h (by decide)
    rw [if_neg hbr]
  · intro rs₁ ct rs₂ str hsplit hpre hct hsrc
    unfold addQuanta
    rw [if_neg hk, if_neg hv, if_neg hok, if_neg hk2, hsplit,
      dedupStep_found (normValue k value) (normError error) source rs₁ ct rs₂ str hpre hct hsrc]

/-- C5 witness: appending on a value miss, and source-union plus error
overwrite on a value hit. -/
theorem C5_nonpreferred_dedup_witness :
    (addQuanta evC5 "discoverer" "Jones" "S2" false "" =
       .ok (appendQ evC5 "discoverer" (quantaEntry "discoverer" "Jones" "S2" ""))) ∧
    (addQuanta evC5 "discoverer" "Smith" "S2" false "0.5" =
       .ok (setQ evC5 "discoverer" ([] ++
         (if "S2" ≠ "" ∧ ¬ (pySplit "S1" ',').contains "S2" then
           { (⟨"Smith", none, some "S1"⟩ : QRec) with
               source := some ("S1" ++ "," ++ "S2"),
               error := if normError "0.5" ≠ "" then some (normError "0.5") else none }
          else ⟨"Smith", none, some "S1"⟩) :: []))) := by
  constructor
  · exact (C5_nonpreferred_dedup evC5 "discoverer" "Jones" "S2" "" (by decide) (by decide)
      (by decide) (by decide)).1 (by with_unfolding_all decide)
  · exact (C5_nonpreferred_dedup evC5 "discoverer" "Smith" "S2" "0.5" (by decide) (by decide)
      (by decide) (by with_unfolding_all decide)).2 [] ⟨"Smith", none, some "S1"⟩ [] "S1"
      (by with_unfolding_all rfl) (by decide) (by with_unfolding_all decide) rfl

/-! ## C3: error domination in the prefer-better policy -/

/-- Prefer-better fold against records that all lack errors, by a
candidate with a stated error: every record is dropped and the candidate
marked not-worse (once at least one record exists). -/
theorem rbStep_fold_all_errorless (sv se : String) (hse : se ≠ "") (rs : List QRec)
    (h : ∀ r ∈ rs, r.error = none) (init : List QRec × Bool) :
    rs.foldl (rbStep sv se) init = (init.1, if rs = [] then init.2 else false) := by
  induction rs generalizing init with
  | nil => rfl
  | cons ct rest ih =>
    have hct : ct.error = none := h ct (List.mem_cons_self ct rest)
    have hstep : rbStep sv se init ct = (init.1, false) := by
      simp [rbStep, hct, hse]
    rw [List.foldl_cons, hstep, ih (fun r hr => h r (List.mem_cons_of_mem ct hr))]
    simp

/-- Prefer-better fold against records that all carry errors, by a
candidate without one: every record is kept and the worse-flag is
untouched. -/
theorem rbStep_fold_all_errored (sv : String) (rs : List QRec)
    (h : ∀ r ∈ rs, r.error ≠ none) (init : List QRec × Bool) :
    rs.foldl (rbStep sv "") init = (init.1 ++ rs, init.2) := by
  induction rs generalizing init with
  | nil => simp
  | cons ct rest ih =>
    obtain ⟨e, he⟩ : ∃ e, ct.error = some e :=
      Option.ne_none_iff_exists'.mp (h ct (List.mem_cons_self ct rest))
    have hstep : rbStep sv "" init ct = (init.1 ++ [ct], init.2) := by
      simp [rbStep, he]
    rw [List.foldl_cons, hstep, ih (fun r hr => h r (List.mem_cons_of_mem ct hr))]
    simp

/-- C3: the prefer-better policy's error-dominance rules.  (i) the spec's
concrete example: ingesting redshift `0.045 ± 0.001` from `S1` and then
the errorless redshift `0.04` from `S2` leaves exactly the one record
`0.045 ± 0.001` cited by `S1` alone; (ii) a candidate with a stated error
dominates (drops) every errorless existing record and is inserted;
(iii) an errorless candidate is dominated whenever every existing record
has a stated error: all are kept and the candidate is not inserted. -/
theorem C3_error_dominance :
    (addQuanta evFresh "redshift" "0.045" "S1" false "0.001" = .ok evC3 ∧
     addQuanta evC3 "redshift" "0.04" "S2" false "" = .ok evC3 ∧
     getQ evC3 "redshift" = some [⟨"0.045", some "0.001", some "S1"⟩]) ∧
    (∀ rs entry sv se, se ≠ "" → rs ≠ [] → (∀ r ∈ rs, r.error = none) →
       replaceBetter rs entry sv se = [entry]) ∧
    (∀ rs entry sv, (∀ r ∈ rs, r.error ≠ none) →
       replaceBetter rs entry sv "" = rs) := by
  refine ⟨⟨by with_unfolding_all rfl, by with_unfolding_all rfl, by rfl⟩, ?_, ?_⟩
  · intro rs entry sv se hse hne h
    unfold replaceBetter
    rw [rbStep_fold_all_errorless sv se hse rs h ([], true), if_neg hne]
    simp
  · intro rs entry sv h
    unfold replaceBetter
    rw [rbStep_fold_all_errored sv rs h ([], true)]
    simp

/-- C3 witness: the two general dominance rules applied to one-record
stores. -/
theorem C3_error_dominance_witness :
    (replaceBetter [⟨"0.04", none, some "S2"⟩] ⟨"0.045", some "0.001", some "S1"⟩
       "0.045" "0.001" = [⟨"0.045", some "0.001", some "S1"⟩]) ∧
    (replaceBetter [⟨"0.045", some "0.001", some "S1"⟩] ⟨"0.04", none, some "S2"⟩
       "0.04" "" = [⟨"0.045", some "0.001", some "S1"⟩]) := by
  constructor
  · exact C3_error_dominance.2.1 [⟨"0.04", none, some "S2"⟩]
      ⟨"0.045", some "0.001", some "S1"⟩ "0.045" "0.001" (by decide) (by decide)
      (by decide)
  · exact C3_error_dominance.2.2 [⟨"0.045", some "0.001", some "S1"⟩]
      ⟨"0.04", none, some "S2"⟩ "0.04" (by decide)

/-! ## C1: `add_event` implements resolve-or-create -/

/-- `find?` only depends on the predicate's values on the list. -/
theorem find?_congr_on {α : Type} (p q : α → Bool) (l : List α)
    (h : ∀ x ∈ l, p x = q x) : l.find? p = l.find? q := by
  induction l with
  | nil => rfl
  | cons x rest ih =>
    rw [List.find?_cons, List.find?_cons, h x (List.mem_cons_self x rest),
      ih (fun y hy => h y (List.mem_cons_of_mem x hy))]

/-- A key lookup succeeds exactly when some entry has that key. -/
theorem lookupEv_isSome_iff (evs : Events) (n : String) :
    (lookupEv evs n).isSome = true ↔ ∃ p ∈ evs, p.1 = n := by
  unfold lookupEv
  rw [Option.isSome_map']
  simp

/-- A list containing two distinct elements has more than one element. -/
theorem one_lt_length_of_two_mem {α : Type} {l : List α} {a b : α}
    (ha : a ∈ l) (hb : b ∈ l) (hab : a ≠ b) : 1 < l.length := by
  match l with
  | [] => cases ha
  | [x] =>
    rw [List.mem_singleton] at ha hb
    exact absurd (ha.trans hb.symm) hab
  | x :: y :: rest => simp [Nat.lt_add_of_pos_left]

/-- C1, counterexample to the claim as stated, on its `add_entry` half
(catalog.py lines 493-544).  First: on a fresh catalog, the entity that
`add_entry` creates for the unknown name `X` has an *empty* alias list,
not `[X]` — alias registration is the caller's separate, sourced step
(`Catalog.new_entry`).  Second: in `catDist` the name `1987A` occurs in
the alias list of the existing entity `SN1987A`, yet `add_entry` creates
a fresh entity keyed `1987A` and returns `1987A` rather than `SN1987A`:
the index entry is stale and the entity disclaims the alias in
`distinct_from`, so the resolution scan skips it. -/
theorem C1_counterexample :
    (add_entry ⟨[], [], []⟩ "X" true true =
       (⟨[("X", protoEntry "X")], [], []⟩, "X") ∧
     (protoEntry "X").aliases ≠ ["X"]) ∧
    ((add_entry catDist "1987A" true true).2 = "1987A" ∧
     add_entry catDist "1987A" true true =
       ({ catDist with
            entries := catDist.entries ++ [("1987A", protoEntry "1987A")] },
        "1987A") ∧
     (∃ p ∈ catDist.entries, p.1 = "SN1987A" ∧ "1987A" ∈ p.2.aliases) ∧
     ("1987A" : String) ≠ "SN1987A") := by
  refine ⟨⟨by rfl, by decide⟩, by rfl, by rfl, ?_, by decide⟩
  exact ⟨("SN1987A", snDisclaim), by decide, by decide, by decide⟩

/-- C1 (amended): `add_event` realises the claimed three-case contract
exactly — on every directory in which each entity's canonical key is
among its own aliases (which holds in every reachable state) it behaves
as the spec's resolve-or-create: a known key is returned with the
directory unchanged; otherwise an alias hit returns the first owning
entity's canonical name with the directory unchanged; otherwise a fresh
entity keyed `name` with aliases exactly `[name]` is appended and `name`
returned; on a directory where `1987A` was registered as an alias of
`SN1987A`, resolving `SN1987A` and `1987A` both return `SN1987A` and
change nothing.  `Catalog.add_entry` realises it in the weaker form the
code supports: a known non-stub key is returned with the catalog
unchanged; a name whose alias-index entry points at a live entity
resolves to that entity's canonical name (and is returned, the catalog
unchanged when storage has no file for it), so the `SN1987A`/`1987A`
example also holds there under a live index; a name that resolves to
nothing and has no stored file gets a fresh entry under the cleaned name,
with name returned — but that fresh entry's alias list is empty, not
`[name]`. -/
theorem C1_resolve_or_create :
    (∀ evs name, KeysInAliases evs → addEvent evs name = resolveOrCreateSpec evs name) ∧
    ((addEvent ex1987 "SN1987A").1 = ex1987 ∧ (addEvent ex1987 "SN1987A").2 = "SN1987A" ∧
     (addEvent ex1987 "1987A").1 = ex1987 ∧ (addEvent ex1987 "1987A").2 = "SN1987A") ∧
    (∀ c name ent load delete, lookupA c.entries (clean_entry_name name) = some ent →
       ent.stub = false → add_entry c name load delete = (c, clean_entry_name name)) ∧
    (∀ c a n, lookupA c.aliasIndex a = some n → (lookupA c.entries n).isSome = true →
       find_entry_name_of_alias c a = some n) ∧
    (∀ c name m delete, knownMaterial c (clean_entry_name name) = false →
       find_entry_name_of_alias c (clean_entry_name name) = some m →
       (add_entry c name true delete).2 = m ∧
       (lookupA c.storage m = none → add_entry c name true delete = (c, m))) ∧
    (∀ c name delete, knownMaterial c (clean_entry_name name) = false →
       find_entry_name_of_alias c (clean_entry_name name) = none →
       lookupA c.storage (clean_entry_name name) = none →
       add_entry c name true delete =
         ({ c with
              entries := setA c.entries (clean_entry_name name)
                (protoEntry (clean_entry_name name)) },
          clean_entry_name name) ∧
       (protoEntry (clean_entry_name name)).aliases = []) ∧
    (add_entry cat87 "SN1987A" true true = (cat87, "SN1987A") ∧
     add_entry cat87 "1987A" true true = (cat87, "SN1987A")) := by
  refine ⟨?_, ?_, ?_, ?_, ?_, ?_, by rfl, by rfl⟩
  · intro evs name hwf
    unfold addEvent resolveOrCreateSpec
    by_cases hk : (lookupEv evs name).isSome
    · rw [if_pos hk, if_pos hk]
    · rw [if_neg hk, if_neg hk]
      have hnone : ∀ p ∈ evs, p.1 ≠ name := by
        intro p hp heq
        exact hk ((lookupEv_isSome_iff evs name).mpr ⟨p, hp, heq⟩)
      have hcong : evs.find? (fun p => decide (1 < p.2.aliases.length) &&
          p.2.aliases.contains name) = evs.find? (fun p => p.2.aliases.contains name) := by
        apply find?_congr_on
        intro p hp
        by_cases hm : name ∈ p.2.aliases
        · have hlen : 1 < p.2.aliases.length :=
            one_lt_length_of_two_mem (hwf p hp) hm (fun h => hnone p hp (h ▸ rfl))
          simp [hm, hlen]
        · simp [hm]
      rw [hcong]
  · refine ⟨by decide, by decide, by decide, by decide⟩
  · intro c name ent load delete hlook hstub
    have hkm : knownMaterial c (clean_entry_name name) = true := by
      unfold knownMaterial
      simp only [hlook, hstub]
      rfl
    unfold add_entry
    rw [hkm]
    rfl
  · intro c a n hidx hlive
    unfold find_entry_name_of_alias
    simp only [hidx]
    rw [if_pos hlive]
  · intro c name m delete hkm hfind
    unfold add_entry
    rw [hkm]
    simp only [Bool.false_eq_true, if_false, hfind, if_true]
    constructor
    · unfold load_entry_from_name initFromFile
      cases hst : lookupA c.storage m with
      | some ent => simp [hst]
      | none => simp [hst]
    · intro hmiss
      unfold load_entry_from_name initFromFile
      simp [hmiss]
  · intro c name delete hkm hfind hmiss
    unfold add_entry
    rw [hkm]
    simp only [Bool.false_eq_true, if_false, hfind, if_true]
    unfold load_entry_from_name initFromFile
    simp only [hmiss]
    exact ⟨trivial, rfl⟩

/-- C1 witness: the add_event refinement applied to the `SN1987A`
directory, and the add_entry conjuncts (known non-stub key; live-index
alias hit) applied to the healthy catalog `cat87`. -/
theorem C1_resolve_or_create_witness :
    addEvent ex1987 "1987A" = resolveOrCreateSpec ex1987 "1987A" ∧
    add_entry cat87 "SN1987A" true true = (cat87, "SN1987A") ∧
    (add_entry cat87 "1987A" true true).2 = "SN1987A" := by
  refine ⟨C1_resolve_or_create.1 ex1987 "1987A" (by unfold KeysInAliases; decide), ?_, ?_⟩
  · exact C1_resolve_or_create.2.2.1 cat87 "SN1987A" ⟨"SN1987A", false, ["1987A"], none⟩
      true true (by decide) (by decide)
  · exact (C1_resolve_or_create.2.2.2.2.1 cat87 "1987A" "SN1987A" true
      (by decide) (by decide)).1

/-! ## C6: citation identity and alias numbering -/

/-- On a registry with pairwise-distinct reference names, the identity
scan finds exactly the entry with the requested name. -/
theorem find?_name_eq_some {srcs : List Source} {s : Source} {r : String}
    (hnd : (srcs.map (fun t => t.name)).Nodup) (hs : s ∈ srcs) (hname : s.name = r) :
    srcs.find? (fun t => t.name == r) = some s := by
  induction srcs with
  | nil => cases hs
  | cons t rest ih =>
    rw [List.map_cons, List.nodup_cons] at hnd
    rcases List.mem_cons.mp hs with h | h
    · subst h
      simp [List.find?_cons, hname]
    · have hne : t.name ≠ r := by
        intro he
        exact hnd.1 (he ▸ hname ▸ List.mem_map_of_mem (fun x => x.name) h)
      simp only [List.find?_cons, beq_eq_false_iff_ne.mpr hne]
      exact ih hnd.2 h

/-- The state invariant of the per-event source registry: reference names
are pairwise distinct and the aliases are exactly `"1", ..., "n"` in
insertion order. -/
theorem gsreach_inv {srcs : List Source} (h : GSReach srcs) :
    (srcs.map (fun t => t.name)).Nodup ∧
    srcs.map (fun t => t.aliasStr) =
      (List.range srcs.length).map (fun i => toString (i + 1)) := by
  induction h with
  | nil => simp
  | step srcs r u b sec srcs' a hr heq ih =>
    unfold get_source at heq
    by_cases h0 : r = "" ∧ b = ""
    · rw [if_pos h0] at heq; cases heq
    · rw [if_neg h0] at heq
      cases hfind : srcs.find? (fun s => s.name == srcRef r b) with
      | some s =>
        rw [hfind] at heq
        cases heq
        exact ih
      | none =>
        rw [hfind] at heq
        cases heq
        have hnotin : srcRef r b ∉ srcs.map (fun t => t.name) := by
          intro hmem
          obtain ⟨s, hsmem, hsname⟩ := List.mem_map.mp hmem
          have := List.find?_eq_none.mp hfind s hsmem
          simp [hsname] at this
        constructor
        · rw [List.map_append]
          refine (List.nodup_append).mpr ⟨ih.1, List.nodup_singleton _, ?_⟩
          intro x hx hx2
          rw [List.map_singleton, List.mem_singleton] at hx2
          simp only [newSource] at hx2
          exact hnotin (hx2 ▸ hx)
        · rw [List.map_append, List.length_append, ih.2, List.map_singleton]
          simp [List.range_succ, newSource]

/-- C6: after any sequence of `get_source` calls on one event, (a) no two
citations share the same (reference_name, bibcode) identity; (b) the
citation aliases are exactly the strings `"1", "2", ...` in insertion
order; (c) requesting a source whose identity is already registered
returns the existing citation's alias and appends nothing. -/
theorem C6_citation_registry (srcs : List Source) (h : GSReach srcs) :
    List.Pairwise (fun s t => ¬(s.name = t.name ∧ s.bibcode = t.bibcode)) srcs ∧
    srcs.map (fun t => t.aliasStr) =
      (List.range srcs.length).map (fun i => toString (i + 1)) ∧
    (∀ reference url bibcode sec (s : Source), s ∈ srcs →
       s.name = srcRef reference bibcode →
       s.bibcode = (if bibcode = "" then none else some bibcode) →
       ¬(reference = "" ∧ bibcode = "") →
       get_source srcs reference url bibcode sec = .ok (srcs, s.aliasStr)) := by
  obtain ⟨hnd, halias⟩ := gsreach_inv h
  refine ⟨?_, halias, ?_⟩
  · have hp : List.Pairwise (fun s t : Source => s.name ≠ t.name) srcs := by
      have h2 := hnd
      unfold List.Nodup at h2
      rw [List.pairwise_map] at h2
      exact h2
    exact hp.imp (fun hne hpair => hne hpair.1)
  · intro reference url bibcode sec s hs hname hbib h0
    unfold get_source
    rw [if_neg h0, find?_name_eq_some hnd hs hname]

/-- C6 witness: in a registry reached by one registration of `RefA`,
re-requesting the same identity returns the existing alias `1` and
appends nothing. -/
theorem C6_citation_registry_witness :
    get_source [⟨"RefA", some "u", none, "1", false⟩] "RefA" "x" "" false =
      .ok ([⟨"RefA", some "u", none, "1", false⟩], "1") :=
  (C6_citation_registry [⟨"RefA", some "u", none, "1", false⟩]
      (GSReach.step [] "RefA" "u" "" false [⟨"RefA", some "u", none, "1", false⟩] "1"
        GSReach.nil (by rfl))).2.2
    "RefA" "x" "" false ⟨"RefA", some "u", none, "1", false⟩ (by decide) (by decide)
    (by decide) (by decide)

/-! ## C2: alias disjointness -/

/-- Everything in an updated alias list was there before or is the new
alias. -/
theorem mem_addAliasL_elim {als : List String} {a x : String}
    (h : x ∈ addAliasL als a) : x ∈ als ∨ x = a := by
  unfold addAliasL at h
  by_cases h0 : als = []
  · rw [if_pos h0] at h
    right; simpa using h
  · rw [if_neg h0] at h
    by_cases hc : als.contains a = true
    · rw [if_pos hc] at h; exact Or.inl h
    · rw [if_neg hc] at h
      rcases List.mem_append.mp h with h | h
      · exact Or.inl h
      · right; simpa using h

/-- `add_alias` never removes an alias. -/
theorem mem_addAliasL_of_mem {als : List String} {a x : String} (h : x ∈ als) :
    x ∈ addAliasL als a := by
  unfold addAliasL
  by_cases h0 : als = []
  · subst h0; cases h
  · rw [if_neg h0]
    by_cases hc : als.contains a = true
    · rw [if_pos hc]; exact h
    · rw [if_neg hc]; exact List.mem_append_left _ h

/-- `add_event` preserves the directory invariant. -/
theorem evInv_addEvent (s : Events) (n : String) (h : EvInv s) :
    EvInv (addEvent s n).1 := by
  obtain ⟨hnd, hka, hdj⟩ := h
  unfold addEvent
  by_cases hk : (lookupEv s n).isSome = true
  · rw [if_pos hk]; exact ⟨hnd, hka, hdj⟩
  · rw [if_neg hk]
    have hnone : ∀ p ∈ s, p.1 ≠ n := fun p hp heq =>
      hk ((lookupEv_isSome_iff s n).mpr ⟨p, hp, heq⟩)
    cases hfind : s.find?
        (fun p => decide (1 < p.2.aliases.length) && p.2.aliases.contains n) with
    | some p => exact ⟨hnd, hka, hdj⟩
    | none =>
      have halias : ∀ p ∈ s, n ∉ p.2.aliases := by
        intro p hp hmem
        have hpred := List.find?_eq_none.mp hfind p hp
        have hlen : 1 < p.2.aliases.length :=
          one_lt_length_of_two_mem (hka p hp) hmem (fun he => hnone p hp (he ▸ rfl))
        simp [hlen, hmem] at hpred
      refine ⟨?_, ?_, ?_⟩
      · rw [List.map_append]
        refine List.nodup_append.mpr ⟨hnd, List.nodup_singleton _, ?_⟩
        intro x hx hx2
        simp only [List.map_cons, List.map_nil, List.mem_singleton] at hx2
        obtain ⟨p, hp, hpx⟩ := List.mem_map.mp hx
        exact hnone p hp (by rw [hpx]; exact hx2)
      · intro p hp
        rcases List.mem_append.mp hp with h1 | h1
        · exact hka p h1
        · rw [List.mem_singleton] at h1; subst h1; simp [newEvent]
      · intro p hp q hq hpq x hxp hxq
        rcases List.mem_append.mp hp with h1 | h1 <;>
          rcases List.mem_append.mp hq with h2 | h2
        · exact hdj p h1 q h2 hpq x hxp hxq
        · rw [List.mem_singleton] at h2; subst h2
          simp only [newEvent] at hxq
          rw [List.mem_singleton] at hxq
          exact halias p h1 (hxq ▸ hxp)
        · rw [List.mem_singleton] at h1; subst h1
          simp only [newEvent] at hxp
          rw [List.mem_singleton] at hxp
          exact halias q h2 (hxp ▸ hxq)
        · rw [List.mem_singleton] at h1 h2; subst h1; subst h2
          exact absurd rfl hpq

/-- `add_alias` does not change the set of canonical keys. -/
theorem keys_addAlias (s : Events) (n a : String) :
    (addAlias s n a).map (fun p => p.1) = s.map (fun p => p.1) := by
  unfold addAlias
  induction s with
  | nil => rfl
  | cons p rest ih =>
    simp only [List.map_cons, ih]
    by_cases hp : (p.1 == n) = true <;> simp [hp]

/-- Members of an `add_alias` result come from members of the input. -/
theorem mem_addAlias_elim {s : Events} {n a : String} {p' : String × Event}
    (h : p' ∈ addAlias s n a) :
    ∃ p ∈ s, p' = (if p.1 == n then (p.1, { p.2 with aliases := addAliasL p.2.aliases a })
                   else p) := by
  unfold addAlias at h
  obtain ⟨p, hp, he⟩ := List.mem_map.mp h
  exact ⟨p, hp, he.symm⟩

/-- Guarded `add_alias` (the alias is not already owned by a different
entity) preserves the directory invariant. -/
theorem evInv_addAlias (s : Events) (n a : String) (h : EvInv s)
    (hg : ∀ p ∈ s, p.1 ≠ n → a ∉ p.2.aliases) : EvInv (addAlias s n a) := by
  obtain ⟨hnd, hka, hdj⟩ := h
  refine ⟨?_, ?_, ?_⟩
  · rw [keys_addAlias]; exact hnd
  · intro p' hp'
    obtain ⟨p, hp, rfl⟩ := mem_addAlias_elim hp'
    by_cases hpn : (p.1 == n) = true
    · rw [if_pos hpn]
      exact mem_addAliasL_of_mem (hka p hp)
    · rw [if_neg hpn]; exact hka p hp
  · intro p' hp' q' hq' hne x hxp hxq
    obtain ⟨p, hp, rfl⟩ := mem_addAlias_elim hp'
    obtain ⟨q, hq, rfl⟩ := mem_addAlias_elim hq'
    by_cases hpn : (p.1 == n) = true <;> by_cases hqn : (q.1 == n) = true
    · rw [if_pos hpn] at hne
      rw [if_pos hqn] at hne
      exact hne (by rw [beq_iff_eq.mp hpn, beq_iff_eq.mp hqn])
    · rw [if_pos hpn] at hne hxp
      rw [if_neg hqn] at hne hxq
      rcases mem_addAliasL_elim hxp with hx | hx
      · exact hdj p hp q hq hne x hx hxq
      · subst hx
        exact hg q hq (by simpa using hqn) hxq
    · rw [if_neg hpn] at hne hxp
      rw [if_pos hqn] at hne hxq
      rcases mem_addAliasL_elim hxq with hx | hx
      · exact hdj p hp q hq hne x hxp hx
      · subst hx
        exact hg p hp (by simpa using hpn) hxp
    · rw [if_neg hpn] at hne hxp
      rw [if_neg hqn] at hne hxq
      exact hdj p hp q hq hne x hxp hxq

/-- Every directory reached by guarded ingestion satisfies the
invariant. -/
theorem evReachG_inv {s : Events} (h : EvReachG s) : EvInv s := by
  induction h with
  | nil =>
    exact ⟨List.nodup_nil, fun p hp => absurd hp (List.not_mem_nil p),
      fun p hp => absurd hp (List.not_mem_nil p)⟩
  | ev s n hr ih => exact evInv_addEvent s n ih
  | al s n a hr hsome hg ih => exact evInv_addAlias s n a ih hg

/-- C2, counterexample to the claim as stated: the state `evBad` — where
`add_alias` registered the same alias `X` on both entities `A` and `B` —
is reachable by `add_event`/`add_alias` ingestion, and its alias sets are
not pairwise disjoint. -/
theorem C2_counterexample : EvReach evBad ∧ ¬ DisjAliases evBad := by
  constructor
  · exact EvReach.al _ "B" "X"
      (EvReach.al _ "A" "X" (EvReach.ev _ "B" (EvReach.ev _ "A" EvReach.nil)) (by decide))
      (by decide)
  · unfold DisjAliases
    decide

/-- C2 (amended): alias disjointness is an invariant of `add_event`
together with *guarded* alias registration — `add_alias(name, alias)`
calls whose alias is not already carried by a different entity.  (No
merge operation exists in the import module; unguarded `add_alias` breaks
the invariant, see the counterexample.) -/
theorem C2_alias_disjointness (s : Events) (h : EvReachG s) : DisjAliases s :=
  (evReachG_inv h).2.2

/-- C2 witness: disjointness of the guarded-reachable directory
`{A ↦ [A, Y], B ↦ [B]}`. -/
theorem C2_alias_disjointness_witness : DisjAliases evGood :=
  C2_alias_disjointness evGood
    (EvReachG.al _ "A" "Y" (EvReachG.ev _ "B" (EvReachG.ev _ "A" EvReachG.nil))
      (by decide) (by decide))

/-! ## C7: merge-copy source integrity -/

/-- A successful alias remap resolves every requested alias in the
loser's registry map. -/
theorem resolveSids_ok_mem {am : List (String × Source)} {d : List Source}
    {sids : List String} {r : List Source × List String}
    (h : resolveSids am d sids = .ok r) :
    ∀ sid ∈ sids, (am.find? (fun p => p.1 == sid)).isSome = true := by
  induction sids generalizing d r with
  | nil => intro sid hsid; cases hsid
  | cons sid rest ih =>
    intro x hx
    unfold resolveSids at h
    split at h
    · cases h
    next p hfind =>
      split at h
      · cases h
      next d3 ns hrec =>
        rcases List.mem_cons.mp hx with rfl | hx2
        · simp [hfind]
        · exact ih hrec x hx2

/-- A successful item copy implies every item was sourced and every cited
alias resolved. -/
theorem copyItems_ok_valid {am : List (String × Source)} {dest : CEntry} {k : String}
    {items : List CItem} {d : CEntry} (h : copyItems am dest k items = .ok d) :
    ∀ it ∈ items, ∃ s, it.source = some s ∧
      ∀ sid ∈ pySplit s ',', (am.find? (fun p => p.1 == sid)).isSome = true := by
  induction items generalizing dest d with
  | nil => intro it hit; cases hit
  | cons it rest ih =>
    intro x hx
    unfold copyItems at h
    split at h
    next hsrc => cases h
    next s hsrc =>
      split at h
      · cases h
      next srcs2 nsid hres =>
        rcases List.mem_cons.mp hx with rfl | hx2
        · exact ⟨s, hsrc, resolveSids_ok_mem hres⟩
        · exact ih h x hx2

/-- A successful key-loop copy implies validity of every sourced key's
items. -/
theorem copyAll_ok_valid {am : List (String × Source)} {dest : CEntry}
    {data : List (String × List CItem)} {d : CEntry}
    (h : copyAll am dest data = .ok d) :
    ∀ kl ∈ data, noSourceKey kl.1 = false → ∀ it ∈ kl.2, ∃ s, it.source = some s ∧
      ∀ sid ∈ pySplit s ',', (am.find? (fun p => p.1 == sid)).isSome = true := by
  induction data generalizing dest d with
  | nil => intro kl hkl; cases hkl
  | cons kl rest ih =>
    obtain ⟨k, items⟩ := kl
    intro x hx hns
    unfold copyAll at h
    by_cases hk : noSourceKey k = true
    · rw [if_pos hk] at h
      rcases List.mem_cons.mp hx with rfl | hx2
      · rw [hns] at hk; cases hk
      · exact ih h x hx2 hns
    · rw [if_neg hk] at h
      split at h
      · cases h
      next d2 hitems =>
        rcases List.mem_cons.mp hx with rfl | hx2
        · exact copyItems_ok_valid hitems
        · exact ih h x hx2 hns

/-- C7: during a merge copy, an item of a sourced key of the losing entry
that carries no source, or that cites an alias absent from the losing
entry's source registry, makes `copy_entry_to_entry` raise `ValueError`
(aborting the merge) instead of continuing. -/
theorem C7_merge_source_integrity (fromE destE : CEntry) (k : String)
    (items : List CItem) (it : CItem)
    (hk : (k, items) ∈ fromE.data) (hns : noSourceKey k = false) (hit : it ∈ items)
    (hbad : it.source = none ∨
      ∃ s sid, it.source = some s ∧ sid ∈ pySplit s ',' ∧
        sid ∉ fromE.sources.map (fun t => t.aliasStr)) :
    exceptRaised (copyEntry fromE destE) = true := by
  cases hres : copyEntry fromE destE with
  | error e => rfl
  | ok d =>
    exfalso
    unfold copyEntry at hres
    have hval := copyAll_ok_valid hres (k, items) hk hns it hit
    obtain ⟨s, hs, hall⟩ := hval
    rcases hbad with hnone | ⟨s', sid, hsome, hsplit, hnotin⟩
    · rw [hnone] at hs; cases hs
    · rw [hsome] at hs
      injection hs with hs
      subst hs
      have hfound := hall sid hsplit
      obtain ⟨x, hxmem, hxp⟩ := List.find?_isSome.mp hfound
      obtain ⟨t, htmem, rfl⟩ := List.mem_map.mp hxmem
      exact hnotin (beq_iff_eq.mp hxp ▸ List.mem_map_of_mem (fun t => t.aliasStr) htmem)

/-- C7 witness: a sourceless redshift item aborts the copy. -/
theorem C7_merge_source_integrity_witness :
    exceptRaised (copyEntry ceFromNoSrc ceDest) = true :=
  C7_merge_source_integrity ceFromNoSrc ceDest "redshift" [⟨none, [("value", "0.1")]⟩]
    ⟨none, [("value", "0.1")]⟩ (by decide) (by decide) (by decide) (Or.inl rfl)

/-! ## C8: derived recession velocity -/

/-- A numeric string is not blank and not a bare dash. -/
theorem is_number_not_blank {v : String} (h : is_number v = true) :
    ¬(pyStrip v = "" ∨ pyStrip v = "--" ∨ pyStrip v = "-") := by
  rintro (hv | hv | hv) <;>
    · unfold is_number parsePFloat at h
      rw [hv] at h
      exact absurd h (by decide)

/-- `add_quanta` on a numeric value for an absent `hvel`/`redshift` key
(the derivation's call pattern) appends exactly one new record under that
key, normalised by `'%g'`, sourced `D`, with no error. -/
theorem addQuanta_fresh (ev : Event) (k v : String)
    (hk : k = "hvel" ∨ k = "redshift") (hnum : is_number v = true)
    (hnone : getQ ev k = none) :
    addQuanta ev k v "D" false "" =
      .ok (appendQ ev k ⟨gfmt (pyStrip v), none, some "D"⟩) := by
  have hkne : ¬ k = "" := by rcases hk with rfl | rfl <;> decide
  have hmunge : mungeValue k (pyStrip v) = pyStrip v := by
    rcases hk with rfl | rfl <;> rfl
  have hnv : normValue k v = gfmt (pyStrip v) := by
    unfold normValue
    rw [if_pos hnum, hmunge]
  have hD : getQD ev k = [] := by
    unfold getQD
    rw [hnone]
    rfl
  unfold addQuanta
  rw [if_neg hkne, if_neg (is_number_not_blank hnum),
    if_neg (by decide :
      ¬(pyStrip "" ≠ "" ∧ (¬ is_number (pyStrip "") ∨ floatLtZero (pyStrip "")))),
    if_neg (fun hc => hc.2 hnum), hD, hnone]
  unfold quantaEntry
  rw [hnv, if_neg (fun hc => absurd hc.2 (by decide))]
  rfl

/-- The best-scan accumulator's digit count never decreases. -/
theorem bestStep_fold_acc_le (rs : List QRec) (b : String × Nat) :
    b.2 ≤ (rs.foldl bestStep b).2 := by
  induction rs generalizing b with
  | nil => exact Nat.le_refl _
  | cons r rest ih =>
    rw [List.foldl_cons]
    refine Nat.le_trans ?_ (ih (bestStep b r))
    unfold bestStep
    split
    · exact Nat.le_of_lt (by assumption)
    · exact Nat.le_refl _

/-- The best-scan result dominates every record's digit count. -/
theorem bestStep_fold_ge (rs : List QRec) (b : String × Nat) :
    ∀ r ∈ rs, get_sig_digits r.value ≤ (rs.foldl bestStep b).2 := by
  induction rs generalizing b with
  | nil => intro r hr; cases hr
  | cons r rest ih =>
    intro x hx
    rw [List.foldl_cons]
    rcases List.mem_cons.mp hx with rfl | hx2
    · refine Nat.le_trans ?_ (bestStep_fold_acc_le rest (bestStep b x))
      unfold bestStep
      split
      · exact Nat.le_refl _
      · exact Nat.le_of_not_lt (by assumption)
    · exact ih (bestStep b r) x hx2

/-- The best-scan result is the untouched accumulator or one of the
records. -/
theorem bestStep_fold_mem (rs : List QRec) (b : String × Nat) :
    rs.foldl bestStep b = b ∨
    ∃ r ∈ rs, (rs.foldl bestStep b).1 = r.value ∧
      (rs.foldl bestStep b).2 = get_sig_digits r.value := by
  induction rs generalizing b with
  | nil => exact Or.inl rfl
  | cons r rest ih =>
    rw [List.foldl_cons]
    rcases ih (bestStep b r) with h | ⟨x, hx, h1, h2⟩
    · by_cases hlt : b.2 < get_sig_digits r.value
      · right
        refine ⟨r, List.mem_cons_self r rest, ?_, ?_⟩ <;>
          · rw [h]
            unfold bestStep
            rw [if_pos hlt]
      · left
        rw [h]
        unfold bestStep
        rw [if_neg hlt]
    · exact Or.inr ⟨x, List.mem_cons_of_mem r hx, h1, h2⟩

/-- When the best scan returns a positive digit count, it returns the
value and digit count of one of the records. -/
theorem bestOf_mem (rs : List QRec) (hpos : 0 < (bestOf rs).2) :
    ∃ r ∈ rs, r.value = (bestOf rs).1 ∧ get_sig_digits r.value = (bestOf rs).2 := by
  rcases bestStep_fold_mem rs ("", 0) with h | ⟨r, hr, h1, h2⟩
  · unfold bestOf at hpos
    rw [h] at hpos
    cases hpos
  · exact ⟨r, hr, h1.symm, h2.symm⟩

/-- C8, counterexample to the claim as stated.  First: the event `evC8z`
has a redshift record (`0`) and no hvel record, yet no hvel is derived —
because `0` has zero significant digits.  Second: for `evC8`, whose best
redshift `0.00099` has two significant digits, the derived hvel is `300`,
which carries one significant digit, not two — the rounding to a multiple
of ten loses a digit under `get_sig_digits`. -/
theorem C8_counterexample :
    (deriveVel evC8z = .ok evC8z ∧ getQ evC8z "redshift" ≠ none ∧
       getQ evC8z "hvel" = none) ∧
    (deriveVel evC8 =
       .ok { evC8 with
               quanta := [("redshift", [⟨"0.00099", none, some "1"⟩]),
                          ("hvel", [⟨"300", none, some "D"⟩])] } ∧
     bestOf (getQD evC8 "redshift") = ("0.00099", 2) ∧
     get_sig_digits "300" = 1) := by
  refine ⟨⟨by with_unfolding_all rfl, by with_unfolding_all decide, by rfl⟩,
    ⟨by with_unfolding_all rfl, by with_unfolding_all decide, by decide⟩⟩

/-- C8 (amended): a hvel record is derived iff the entity has a redshift
key, no hvel key, and the greatest significant-digit count `bs` among the
stored redshift values is positive (the stored best value parsing finite
and the computed string numeric, as always holds in practice); the input
of the Doppler relation is a stored redshift value of maximal
significant-digit count; the derived record is appended under the fresh
`hvel` key with synthetic source `D` and nothing else changes, its value
being the `pretty_num`-rounding of the Doppler velocity at `bs`
significant digits — whose own printed digit count can be smaller than
`bs`; symmetrically, the redshift derivation fires exactly on the
mirrored guard (through `math.sqrt`, modelled approximately). -/
theorem C8_derivation :
    (∀ ev rs m e, getQ ev "redshift" = some rs → getQ ev "hvel" = none →
       rs = getQD ev "redshift" →
       0 < (bestOf rs).2 → parsePFloat (bestOf rs).1 = some (PFloat.fin m e) →
       is_number (pretty_num (doppler (finToRat m e)) (bestOf rs).2) = true →
       deriveVel ev = .ok (appendQ ev "hvel"
         ⟨gfmt (pyStrip (pretty_num (doppler (finToRat m e)) (bestOf rs).2)),
          none, some "D"⟩) ∧
       (∀ r ∈ rs, get_sig_digits r.value ≤ (bestOf rs).2) ∧
       (∃ r ∈ rs, r.value = (bestOf rs).1 ∧ get_sig_digits r.value = (bestOf rs).2)) ∧
    (∀ ev, getQ ev "redshift" ≠ none → getQ ev "hvel" = none →
       (bestOf (getQD ev "redshift")).2 = 0 → deriveVel ev = .ok ev) ∧
    (∀ ev, getQ ev "redshift" ≠ none → getQ ev "hvel" ≠ none →
       deriveVel ev = .ok ev) ∧
    (∀ ev rs m e, getQ ev "hvel" = some rs → getQ ev "redshift" = none →
       rs = getQD ev "hvel" →
       0 < (bestOf rs).2 → parsePFloat (bestOf rs).1 = some (PFloat.fin m e) →
       (-1 ≤ vocOf m e ∧ vocOf m e < 1) →
       is_number (pretty_num (sqrtModel ((1 + vocOf m e) / (1 - vocOf m e)) - 1)
         (bestOf rs).2) = true →
       deriveVel ev = .ok (appendQ ev "redshift"
         ⟨gfmt (pyStrip (pretty_num (sqrtModel ((1 + vocOf m e) / (1 - vocOf m e)) - 1)
            (bestOf rs).2)), none, some "D"⟩)) := by
  refine ⟨?_, ?_, ?_, ?_⟩
  · intro ev rs m e hrs hhv hget hpos hparse hnum
    subst hget
    refine ⟨?_, bestStep_fold_ge _ _, bestOf_mem _ hpos⟩
    unfold deriveVel
    rw [if_pos ⟨by rw [hrs]; rfl, by rw [hhv]; exact fun h => by cases h⟩, if_pos hpos,
      hparse]
    exact addQuanta_fresh ev "hvel" _ (Or.inl rfl) hnum hhv
  · intro ev hrs hhv hz
    unfold deriveVel
    rw [if_pos ⟨Option.isSome_iff_ne_none.mpr hrs, by rw [hhv]; exact fun h => by cases h⟩,
      if_neg (by rw [hz]; exact fun h => by cases h)]
  · intro ev hrs hhv
    unfold deriveVel
    rw [if_neg (fun hc => hc.2 (Option.isSome_iff_ne_none.mpr hhv)),
      if_neg (fun hc => hc.2 (Option.isSome_iff_ne_none.mpr hrs))]
  · intro ev rs m e hrs hrd hget hpos hparse hvoc hnum
    subst hget
    unfold deriveVel
    have hnot1 : ¬((getQ ev "redshift").isSome = true ∧
        ¬((getQ ev "hvel").isSome = true)) := by
      intro hc
      rw [hrd] at hc
      exact absurd hc.1 (by decide)
    have hc3 : is_number (bestOf (getQD ev "hvel")).1 = true := by
      unfold is_number
      rw [hparse]
      rfl
    rw [if_neg hnot1, if_pos ⟨by rw [hrs]; rfl, by rw [hrd]; decide⟩,
      if_pos ⟨hpos, hc3⟩]
    simp only [hparse]
    rw [if_pos hvoc]
    exact addQuanta_fresh ev "redshift" _ (Or.inr rfl) hnum hrd

/-- C8 witness: the general derivation equation applied to `evC8`. -/
theorem C8_derivation_witness :
    deriveVel evC8 = .ok (appendQ evC8 "hvel"
      ⟨gfmt (pyStrip (pretty_num (doppler (finToRat 99 (-5)))
         (bestOf (getQD evC8 "redshift")).2)), none, some "D"⟩) :=
  ((C8_derivation.1 evC8 (getQD evC8 "redshift") 99 (-5) (by rfl) (by rfl) rfl
      (by with_unfolding_all decide) (by with_unfolding_all decide)
      (by with_unfolding_all decide))).1

end Astrocats
